import Mathlib

/-!
Verification of the persistence and orchestration layer of the
"agentic-workspace" browser application.

The structured record store (`storage.ts`) keeps five collections —
folders, rooms, agents, room-agent links, messages — in a synchronous
key-value medium.  We embed each collection as a Lean list and each
storage operation as a pure function from store state to store state,
translated operation-for-operation from the TypeScript source.

The archive exporter/importer (`data-export.ts`) and the message
fan-out policy of the orchestrator (`sendMessage` / `upgradeToDepartment`
in the main application component) are embedded further below.
-/

namespace AgenticWorkspace

/-- Room types, from `types.ts`: `'meeting' | 'company' | 'direct'`. -/
inductive RoomType where
  | meeting
  | company
  | direct
deriving DecidableEq

/-- Message roles, from `types.ts`: `'user' | 'model'`. -/
inductive MsgRole where
  | user
  | model
deriving DecidableEq

/-- `Folder` record, from `types.ts`. -/
structure Folder where
  id : String
  name : String
  description : String
  parent_id : Option String
  created_at : String
deriving DecidableEq

/-- `Room` record, from `types.ts`. -/
structure Room where
  id : String
  folder_id : String
  name : String
  type : RoomType
  created_at : String
deriving DecidableEq

/-- `Agent` record, from `types.ts`. -/
structure Agent where
  id : String
  folder_id : String
  name : String
  role : String
  system_instruction : String
  is_assistant : Bool
deriving DecidableEq

/-- Room-agent link pair, as stored under `agentic_room_agents`. -/
structure RoomAgentLink where
  room_id : String
  agent_id : String
deriving DecidableEq

/-- `Message` record, from `types.ts`. -/
structure Message where
  id : String
  room_id : String
  agent_id : Option String
  role : MsgRole
  content : String
  timestamp : String
deriving DecidableEq

/-- The five structured collections kept in localStorage by `storage.ts`. -/
structure Store where
  folders : List Folder
  rooms : List Room
  agents : List Agent
  roomAgents : List RoomAgentLink
  messages : List Message
deriving DecidableEq

/-- The ids of the rooms whose `folder_id` equals `fid` — the rooms that
`removeFolder` is about to cascade over (`storage.ts` lines 42-43). -/
def removedRoomIds (s : Store) (fid : String) : List String :=
  (s.rooms.filter (fun r => r.folder_id == fid)).map Room.id

/-- `removeFolder` from `storage.ts` (lines 38-48): removes the folder with
the given id, then cascades: rooms and agents of that folder are dropped,
and room-agent links and messages referencing any dropped room are dropped. -/
def removeFolder (s : Store) (fid : String) : Store :=
  let roomIds := removedRoomIds s fid
  { folders := s.folders.filter (fun f => f.id != fid)
    rooms := s.rooms.filter (fun r => r.folder_id != fid)
    agents := s.agents.filter (fun a => a.folder_id != fid)
    roomAgents := s.roomAgents.filter (fun ra => !(roomIds.contains ra.room_id))
    messages := s.messages.filter (fun m => !(roomIds.contains m.room_id)) }

/-- `addFolder` from `storage.ts` (lines 32-36). -/
def addFolder (s : Store) (f : Folder) : Store :=
  { s with folders := s.folders ++ [f] }

/-- `addRoom` from `storage.ts` (lines 56-68): appends the room and, for each
element of `agentIds`, appends one room-agent link with no duplicate check.
The optional `agentIds` parameter is modelled as a list (`[]` for absent;
the source skips the link write when the list is empty, which leaves the
link collection unchanged, exactly as appending nothing does). -/
def addRoom (s : Store) (room : Room) (agentIds : List String) : Store :=
  { s with
    rooms := s.rooms ++ [room]
    roomAgents :=
      s.roomAgents ++ agentIds.map (fun aid => { room_id := room.id, agent_id := aid }) }

/-- `addRoomAgent` from `storage.ts` (lines 78-84): inserts the pair only if
it is not already present. -/
def addRoomAgent (links : List RoomAgentLink) (roomId agentId : String)
    : List RoomAgentLink :=
  if links.any (fun r => r.room_id == roomId && r.agent_id == agentId) then links
  else links ++ [{ room_id := roomId, agent_id := agentId }]

/-- `getAgentById` from `storage.ts` (lines 96-98): first agent with the id. -/
def getAgentById (agents : List Agent) (id : String) : Option Agent :=
  agents.find? (fun a => a.id == id)

/-- `addAgent` from `storage.ts` (lines 100-104). -/
def addAgent (s : Store) (a : Agent) : Store :=
  { s with agents := s.agents ++ [a] }

/-- `updateAgentFolder` from `storage.ts` (lines 111-118): finds the first
agent with the given id and overwrites its `folder_id` in place. -/
def updateAgentFolder (agents : List Agent) (agentId newFolderId : String)
    : List Agent :=
  match agents with
  | [] => []
  | a :: rest =>
    if a.id == agentId then { a with folder_id := newFolderId } :: rest
    else a :: updateAgentFolder rest agentId newFolderId

theorem mem_removedRoomIds {s : Store} {fid rid : String} :
    rid ∈ removedRoomIds s fid ↔
      ∃ r ∈ s.rooms, r.folder_id = fid ∧ r.id = rid := by
  simp only [removedRoomIds, List.mem_map, List.mem_filter, beq_iff_eq]
  constructor
  · rintro ⟨r, ⟨hr, hf⟩, hid⟩
    exact ⟨r, hr, hf, hid⟩
  · rintro ⟨r, hr, hf, hid⟩
    exact ⟨r, ⟨hr, hf⟩, hid⟩

/-- Claim C2: for every folder id and every store state, `removeFolder`
removes exactly the folder(s) with that id, every room and agent whose
`folder_id` equals that id, every room-agent link and every message whose
`room_id` is the id of one of the removed rooms — and keeps every other
record of each collection unchanged (membership is preserved verbatim). -/
theorem removeFolder_cascade (s : Store) (fid : String) :
    (∀ f, f ∈ (removeFolder s fid).folders ↔ f ∈ s.folders ∧ f.id ≠ fid) ∧
    (∀ r, r ∈ (removeFolder s fid).rooms ↔ r ∈ s.rooms ∧ r.folder_id ≠ fid) ∧
    (∀ a, a ∈ (removeFolder s fid).agents ↔ a ∈ s.agents ∧ a.folder_id ≠ fid) ∧
    (∀ ra, ra ∈ (removeFolder s fid).roomAgents ↔
      ra ∈ s.roomAgents ∧ ra.room_id ∉ removedRoomIds s fid) ∧
    (∀ m, m ∈ (removeFolder s fid).messages ↔
      m ∈ s.messages ∧ m.room_id ∉ removedRoomIds s fid) := by
  refine ⟨fun f => ?_, fun r => ?_, fun a => ?_, fun ra => ?_, fun m => ?_⟩ <;>
    simp [removeFolder, List.mem_filter, bne_iff_ne, List.contains, List.elem_iff]

/-- Claim C10: `removeFolder` does not recurse into nested folders.  For a
child folder `c` with `parent_id = some fid` (and its own distinct id, room
ids being unique across the store as the id generator guarantees), `c`
itself, all of `c`'s rooms and agents, and every room-agent link and message
referencing one of `c`'s rooms survive `removeFolder s fid` unchanged. -/
theorem removeFolder_child_untouched (s : Store) (fid : String) (c : Folder)
    (hc : c ∈ s.folders) (hparent : c.parent_id = some fid) (hne : c.id ≠ fid)
    (hnodup : (s.rooms.map Room.id).Nodup) :
    c ∈ (removeFolder s fid).folders ∧
    (∀ r ∈ s.rooms, r.folder_id = c.id → r ∈ (removeFolder s fid).rooms) ∧
    (∀ a ∈ s.agents, a.folder_id = c.id → a ∈ (removeFolder s fid).agents) ∧
    (∀ ra ∈ s.roomAgents, (∃ r ∈ s.rooms, r.id = ra.room_id ∧ r.folder_id = c.id) →
      ra ∈ (removeFolder s fid).roomAgents) ∧
    (∀ m ∈ s.messages, (∃ r ∈ s.rooms, r.id = m.room_id ∧ r.folder_id = c.id) →
      m ∈ (removeFolder s fid).messages) := by
  have hlink : ∀ rid : String, (∃ r ∈ s.rooms, r.id = rid ∧ r.folder_id = c.id) →
      rid ∉ removedRoomIds s fid := by
    rintro rid ⟨r, hr, hrid, hrf⟩ hmem
    rcases mem_removedRoomIds.mp hmem with ⟨r', hr', hf', hid'⟩
    have hrr : r = r' :=
      List.inj_on_of_nodup_map hnodup hr hr' (by rw [hrid, hid'])
    apply hne
    rw [← hrf, hrr, hf']
  refine ⟨?_, ?_, ?_, ?_, ?_⟩
  · simpa [removeFolder, List.mem_filter, bne_iff_ne] using ⟨hc, hne⟩
  · intro r hr hrf
    simp only [removeFolder, List.mem_filter, bne_iff_ne]
    exact ⟨hr, by rw [hrf]; exact hne⟩
  · intro a ha haf
    simp only [removeFolder, List.mem_filter, bne_iff_ne]
    exact ⟨ha, by rw [haf]; exact hne⟩
  · intro ra hra hex
    simp only [removeFolder, List.mem_filter, Bool.not_eq_true', ← Bool.not_eq_true,
      List.contains, List.elem_iff]
    exact ⟨hra, by simpa using hlink ra.room_id hex⟩
  · intro m hm hex
    simp only [removeFolder, List.mem_filter, Bool.not_eq_true', ← Bool.not_eq_true,
      List.contains, List.elem_iff]
    exact ⟨hm, by simpa using hlink m.room_id hex⟩

/-!
Message fan-out policy of the orchestrator (`sendMessage` in the main
application component).  The target-agent computation mirrors the source:

  - in a `company` room the message text is scanned for the first
    `@`-followed-by-word-characters token (regex `@(\w+)`, first match);
  - if the token, lowercased, is a substring of some folder agent's
    lowercased name, exactly that (first matching) agent responds;
  - if a token was found but no agent matches, the room's full linked
    agent list responds;
  - if no token is present, only the `is_assistant` agents among the
    room's linked agents respond;
  - in `meeting` and `direct` rooms all linked agents respond.
-/

/-- JavaScript word character (the `\w` class): ASCII alphanumeric or `_`. -/
def isWordChar (c : Char) : Bool :=
  c.isAlphanum || c == '_'

/-- First match of the regex `@(\w+)` over the character list: the maximal
nonempty run of word characters following the first `@` that has one. -/
def findMentionIn : List Char → Option (List Char)
  | [] => none
  | c :: rest =>
    if c == '@' then
      let w := rest.takeWhile isWordChar
      if w.isEmpty then findMentionIn rest else some w
    else findMentionIn rest

/-- Character-wise ASCII lowercasing, as `String.prototype.toLowerCase`
behaves on the ASCII names used here. -/
def lowerChars (l : List Char) : List Char :=
  l.map Char.toLower

/-- Boolean prefix test on character lists. -/
def listHasPref : List Char → List Char → Bool
  | _, [] => true
  | [], _ :: _ => false
  | h :: hs, n :: ns => h == n && listHasPref hs ns

/-- Boolean substring test (`String.prototype.includes`): some suffix of
`hay` starts with `needle`. -/
def listHasSub (needle : List Char) : List Char → Bool
  | [] => listHasPref [] needle
  | h :: hs => listHasPref (h :: hs) needle || listHasSub needle hs

/-- The fan-out target computation of `sendMessage` (company-room mention
resolution and assistant filtering); `folderAgents` is the active folder's
agent list, `roomAgents` the agents linked to the active room. -/
def computeTargetAgents (rt : RoomType) (input : String)
    (folderAgents roomAgents : List Agent) : List Agent :=
  if rt = RoomType.company then
    match findMentionIn input.data with
    | some w =>
      match folderAgents.find?
          (fun a => listHasSub (lowerChars w) (lowerChars a.name.data)) with
      | some ag => [ag]
      | none => roomAgents
    | none => roomAgents.filter (fun a => a.is_assistant)
  else roomAgents

/-- The model message persisted for an agent's response in `sendMessage`
(`role: 'model'`, `agent_id` = the responding agent's id).  The generated
message id and the timestamp are passed in, as the source draws them from
a random generator and the clock. -/
def mkModelMessage (roomId : String) (a : Agent) (txt msgId ts : String) : Message :=
  { id := msgId, room_id := roomId, agent_id := some a.id,
    role := MsgRole.model, content := txt, timestamp := ts }

/-- The sequential fan-out loop of `sendMessage`: for each target agent in
order, call the completion capability and persist the response.  The
source wraps the WHOLE loop in a single try/catch, so a thrown completion
error (modelled as `Except.error`) terminates the loop: the messages
persisted so far are kept and the error is surfaced (logged).  `acc` is
the message log already persisted. -/
def runFanOut (gen : Agent → Except String String) (roomId msgId ts : String) :
    List Agent → List Message → List Message × Option String
  | [], acc => (acc, none)
  | a :: rest, acc =>
    match gen a with
    | Except.error e => (acc, some e)
    | Except.ok txt =>
      runFanOut gen roomId msgId ts rest (acc ++ [mkModelMessage roomId a txt msgId ts])

/-- Concrete non-assistant agent "Alex" used in the routing scenarios. -/
def alexAgent : Agent :=
  { id := "a1", folder_id := "f1", name := "Alex", role := "Engineer",
    system_instruction := "Help with engineering.", is_assistant := false }

/-- Concrete assistant agent "Sam" used in the routing scenarios. -/
def samAgent : Agent :=
  { id := "a2", folder_id := "f1", name := "Sam", role := "Coordinator",
    system_instruction := "Help with coordination.", is_assistant := true }

/-- Completion oracle that throws for agent `a1` and succeeds for others. -/
def failFirstGen : Agent → Except String String :=
  fun a => if a.id == "a1" then Except.error "network error" else Except.ok "hello"

/-- Claim C1 counterexample: in a two-agent fan-out where the completion
capability throws for the first agent (`alexAgent`) and would succeed for
the second (`samAgent`), the loop persists NO messages at all — the second
agent's generate-and-persist step never runs, because the source's single
try/catch wraps the whole loop.  This refutes the claim that the remaining
agents in the fan-out set are still attempted. -/
theorem fanout_error_not_isolated_cex :
    failFirstGen alexAgent = Except.error "network error" ∧
    failFirstGen samAgent = Except.ok "hello" ∧
    runFanOut failFirstGen "r1" "m1" "t1" [alexAgent, samAgent] [] =
      ([], some "network error") :=
  ⟨rfl, rfl, rfl⟩

/-- Claim C1 (amended): if the completion capability throws for an agent in
the fan-out set, the error is surfaced and the whole remaining turn is
aborted — that agent and every later agent produce and persist nothing;
only the messages persisted before the failure are kept. -/
theorem runFanOut_error_aborts (gen : Agent → Except String String)
    (roomId msgId ts e : String) (a : Agent) (rest : List Agent)
    (acc : List Message) (h : gen a = Except.error e) :
    runFanOut gen roomId msgId ts (a :: rest) acc = (acc, some e) := by
  simp [runFanOut, h]

/-- Witness for `runFanOut_error_aborts` at a concrete failing oracle. -/
theorem runFanOut_error_aborts_witness :
    runFanOut failFirstGen "r1" "m1" "t1" [alexAgent, samAgent] [] =
      ([], some "network error") :=
  runFanOut_error_aborts failFirstGen "r1" "m1" "t1" "network error"
    alexAgent [samAgent] [] rfl

/-- ASCII apostrophe, built from its code point so the scenario message can
be written exactly as in the specification. -/
def apostropheStr : String := String.singleton (Char.ofNat 39)

/-- The mention-free scenario message, literally the text of the spec
scenario with its apostrophe. -/
def noMentionMsg : String := "what" ++ apostropheStr ++ "s next"

/-- Claim C5: in a company room holding agents Alex and Sam (Sam the
assistant), the message with an `@alex` mention routes the turn to exactly
Alex (case-insensitive match against the folder's agent names, overriding
the room's agent list), while the mention-free message routes to exactly
the assistant Sam. -/
theorem company_room_mention_routing :
    computeTargetAgents RoomType.company "hey @alex can you help"
      [alexAgent, samAgent] [alexAgent, samAgent] = [alexAgent] ∧
    computeTargetAgents RoomType.company noMentionMsg
      [alexAgent, samAgent] [alexAgent, samAgent] = [samAgent] :=
  ⟨rfl, rfl⟩

/-- Claim C8: in a company room, when the message carries an `@`-token that
matches no folder agent's name, the mention is silently ignored and the
room's FULL linked agent list responds — the assistant-only filter used for
mention-free messages is not applied. -/
theorem unmatched_mention_full_fanout (input : String)
    (folderAgents roomAgents : List Agent) (w : List Char)
    (h1 : findMentionIn input.data = some w)
    (h2 : ∀ a ∈ folderAgents,
      listHasSub (lowerChars w) (lowerChars a.name.data) = false) :
    computeTargetAgents RoomType.company input folderAgents roomAgents
      = roomAgents := by
  have hfind : folderAgents.find?
      (fun a => listHasSub (lowerChars w) (lowerChars a.name.data)) = none := by
    rw [List.find?_eq_none]
    intro a ha
    simp [h2 a ha]
  simp [computeTargetAgents, h1, hfind]

/-- Witness for `unmatched_mention_full_fanout` on a room holding Alex and
Sam, with the unmatched mention token `zed`. -/
theorem unmatched_mention_full_fanout_witness :
    computeTargetAgents RoomType.company "hey @zed hello"
      [alexAgent, samAgent] [alexAgent, samAgent] = [alexAgent, samAgent] :=
  unmatched_mention_full_fanout "hey @zed hello" [alexAgent, samAgent]
    [alexAgent, samAgent] (String.data "zed") (by decide) (by decide)

/-!
Archive exporter and importer, from `data-export.ts`.  The synchronous
key-value medium (localStorage) is embedded as a partial map from key to
raw serialized string; the ZIP container as a manifest (kept structurally,
as `JSON.parse` of `manifest.json` recovers it) plus a list of named data
files.
-/

/-- The localStorage medium: raw serialized string per key. -/
abbrev KVStore := String → Option String

/-- `DATA_KEYS` of `data-export.ts` (lines 3-10). -/
def DATA_KEYS : List String :=
  ["agentic_folders", "agentic_agents", "agentic_rooms",
   "agentic_room_agents", "agentic_messages", "agentic_ai_settings"]

/-- `ExportManifest` of `data-export.ts` (lines 12-17). -/
structure ExportManifest where
  version : Nat
  exportedAt : String
  appVersion : String
  dataKeys : List String
deriving DecidableEq

/-- The ZIP container: the parsed manifest (absent when the archive has no
`manifest.json`) and the named data files. -/
structure Archive where
  manifest : Option ExportManifest
  files : List (String × String)
deriving DecidableEq

/-- File lookup in the container (`zip.file(name)`). -/
def Archive.file (z : Archive) (name : String) : Option String :=
  (z.files.find? (fun p => p.1 == name)).map Prod.snd

/-- If `pat` is a prefix of `hay`, the remainder of `hay` after it. -/
def dropPref : List Char → List Char → Option (List Char)
  | [], hay => some hay
  | _ :: _, [] => none
  | p :: ps, h :: hs => if h == p then dropPref ps hs else none

/-- JavaScript `String.prototype.replace` with a string pattern: replace the
FIRST occurrence of `pat` by `repl` (character-list form). -/
def replaceFirst (pat repl : List Char) : List Char → List Char
  | [] =>
    match dropPref pat [] with
    | some rest => repl ++ rest
    | none => []
  | h :: hs =>
    match dropPref pat (h :: hs) with
    | some rest => repl ++ rest
    | none => h :: replaceFirst pat repl hs

/-- The per-key data file name used by both export (line 46) and import
(line 76): the key with its `agentic_` namespace prefix replaced away
(`key.replace('agentic_', '')`), under `data/`, with a `.json` suffix. -/
def dataFileName (key : String) : String :=
  "data/" ++ String.mk (replaceFirst "agentic_".data [] key.data) ++ ".json"

/-- `exportAllData` (lines 30-54): a version-1 manifest and, for each data
key, one file holding the raw stored string, or `"[]"` when the key is
absent (`raw || '[]'`). -/
def exportAllData (s : KVStore) (exportedAt : String) : Archive :=
  { manifest := some { version := 1, exportedAt := exportedAt,
                       appVersion := "1.0.0", dataKeys := DATA_KEYS },
    files := DATA_KEYS.map (fun key => (dataFileName key, (s key).getD "[]")) }

/-- `localStorage.setItem`. -/
def setItem (s : KVStore) (k v : String) : KVStore :=
  fun k2 => if k2 == k then some v else s k2

/-- `importAllData` (lines 60-86): reject when the manifest is missing or
its version is not 1 (before touching storage); otherwise overwrite, for
each data key whose file is present in the container, the stored value,
counting the restored keys.  Returns the final store state together with
the outcome (`Except.error` models the thrown exception). -/
def importAllData (z : Archive) (s : KVStore) : KVStore × Except String Nat :=
  match z.manifest with
  | none => (s, Except.error "Invalid backup file: missing manifest.json")
  | some m =>
    if m.version ≠ 1 then
      (s, Except.error ("Unsupported backup version: " ++ toString m.version))
    else
      let final := DATA_KEYS.foldl
        (fun acc key =>
          match z.file (dataFileName key) with
          | some content => (setItem acc.1 key content, acc.2 + 1)
          | none => acc)
        (s, 0)
      (final.1, Except.ok final.2)

/-- The empty destination store. -/
def emptyKV : KVStore := fun _ => none

/-- Claim C3: exporting a store and importing the produced archive into an
empty store reproduces each of the five structured collections exactly:
each collection key afterwards holds precisely the serialized pre-export
collection — the verbatim raw string when the key was present
(byte-for-byte), and the empty-collection serialization `"[]"` when it was
absent (an absent key denotes the empty collection). -/
theorem export_import_roundtrip (s : KVStore) (exportedAt : String) :
    ((importAllData (exportAllData s exportedAt) emptyKV).1 "agentic_folders"
      = some ((s "agentic_folders").getD "[]")) ∧
    ((importAllData (exportAllData s exportedAt) emptyKV).1 "agentic_agents"
      = some ((s "agentic_agents").getD "[]")) ∧
    ((importAllData (exportAllData s exportedAt) emptyKV).1 "agentic_rooms"
      = some ((s "agentic_rooms").getD "[]")) ∧
    ((importAllData (exportAllData s exportedAt) emptyKV).1 "agentic_room_agents"
      = some ((s "agentic_room_agents").getD "[]")) ∧
    ((importAllData (exportAllData s exportedAt) emptyKV).1 "agentic_messages"
      = some ((s "agentic_messages").getD "[]")) :=
  ⟨rfl, rfl, rfl, rfl, rfl⟩

/-- Claim C4: importing an archive whose manifest version is anything other
than 1 rejects with the descriptive error and performs no write: the
destination store (every collection key and the settings key) is returned
unchanged. -/
theorem importAllData_rejects_bad_version (z : Archive) (s : KVStore)
    (m : ExportManifest) (hm : z.manifest = some m) (hv : m.version ≠ 1) :
    importAllData z s =
      (s, Except.error ("Unsupported backup version: " ++ toString m.version)) := by
  simp [importAllData, hm, hv]

/-- A concrete archive with manifest version 2 and a data file. -/
def archiveV2 : Archive :=
  { manifest := some { version := 2, exportedAt := "2024-01-01T00:00:00Z",
                       appVersion := "1.0.0", dataKeys := DATA_KEYS },
    files := [("data/folders.json", "[]")] }

/-- Witness for `importAllData_rejects_bad_version` at manifest version 2
against the empty store. -/
theorem importAllData_rejects_bad_version_witness :
    importAllData archiveV2 emptyKV =
      (emptyKV, Except.error ("Unsupported backup version: " ++ toString (2 : Nat))) :=
  importAllData_rejects_bad_version archiveV2 emptyKV _ rfl (by decide)

/-!
Department upgrade (`upgradeToDepartment` in the main application
component): creates a child folder, relocates the agent, creates a meeting
room (linked to the agent) and a company room, creates a fresh department
assistant, links the assistant to both rooms.  The randomly generated ids
and the clock value are passed in as parameters.
-/

/-- `upgradeToDepartment` from the main application component (lines
315-372 of the concatenated source), translated step for step over the
storage operations it calls. -/
def upgradeToDepartment (s : Store) (agentId folderName newFolderId roomId
    companyRoomId assistantId ts : String) : Store :=
  match getAgentById s.agents agentId with
  | none => s
  | some agent =>
    let newFolder : Folder :=
      { id := newFolderId, name := folderName,
        description := "Department for " ++ agent.name,
        parent_id := some agent.folder_id, created_at := ts }
    let s1 := addFolder s newFolder
    let s2 := { s1 with agents := updateAgentFolder s1.agents agentId newFolderId }
    let s3 := addRoom s2
      { id := roomId, folder_id := newFolderId, name := "Department Meeting",
        type := RoomType.meeting, created_at := ts } [agentId]
    let s4 := addRoom s3
      { id := companyRoomId, folder_id := newFolderId, name := "Department Chat",
        type := RoomType.company, created_at := ts } []
    let deptAssistant : Agent :=
      { id := assistantId, folder_id := newFolderId, name := "Dept Assistant",
        role := "Department Coordinator",
        system_instruction := "You are the primary assistant for this department. You help with meeting minutes and coordination.",
        is_assistant := true }
    let s5 := addAgent s4 deptAssistant
    let s6 := { s5 with roomAgents := addRoomAgent s5.roomAgents roomId assistantId }
    { s6 with roomAgents := addRoomAgent s6.roomAgents companyRoomId assistantId }

theorem addRoomAgent_of_not_mem (links : List RoomAgentLink) (r a : String)
    (h : ∀ l ∈ links, ¬(l.room_id = r ∧ l.agent_id = a)) :
    addRoomAgent links r a = links ++ [{ room_id := r, agent_id := a }] := by
  rw [addRoomAgent, if_neg]
  simp only [List.any_eq_true, Bool.and_eq_true, beq_iff_eq, not_exists, not_and]
  intro l hl hr ha
  exact h l hl ⟨hr, ha⟩

theorem getAgentById_update (agents : List Agent) (agentId nf : String)
    (agent : Agent) (h : getAgentById agents agentId = some agent) :
    getAgentById (updateAgentFolder agents agentId nf) agentId =
      some { agent with folder_id := nf } := by
  induction agents with
  | nil => simp [getAgentById, List.find?] at h
  | cons a rest ih =>
    simp only [getAgentById, List.find?] at h
    cases ha : a.id == agentId with
    | true =>
      rw [ha] at h
      cases h
      simp [updateAgentFolder, ha, getAgentById, List.find?]
    | false =>
      rw [ha] at h
      simp only [updateAgentFolder, ha, Bool.false_eq_true, if_false,
        getAgentById, List.find?, ha]
      exact ih h

theorem getAgentById_append_left (l1 l2 : List Agent) (id : String)
    (agent : Agent) (h : getAgentById l1 id = some agent) :
    getAgentById (l1 ++ l2) id = some agent := by
  induction l1 with
  | nil => simp [getAgentById, List.find?] at h
  | cons a rest ih =>
    simp only [getAgentById, List.find?] at h
    cases ha : a.id == id with
    | true =>
      rw [ha] at h
      simpa [getAgentById, List.find?, ha] using h
    | false =>
      rw [ha] at h
      simpa [getAgentById, List.find?, ha] using ih h

/-- Claim C6: upgrading an agent to a department creates a new folder whose
`parent_id` is the agent's previous folder, relocates the agent (same id)
into the new folder, creates one meeting room linked to exactly the
relocated agent and the newly created department assistant, and one
company room linked to exactly the new assistant.  The hypotheses state
that the agent exists and that the generated ids are fresh. -/
theorem upgradeToDepartment_spec (s : Store) (agentId folderName newFolderId
    roomId companyRoomId assistantId ts : String) (agent : Agent)
    (hagent : getAgentById s.agents agentId = some agent)
    (hfresh : ∀ l ∈ s.roomAgents, l.room_id ≠ roomId ∧ l.room_id ≠ companyRoomId)
    (hrooms : roomId ≠ companyRoomId)
    (hassist : assistantId ≠ agentId) :
    (({ id := newFolderId, name := folderName,
        description := "Department for " ++ agent.name,
        parent_id := some agent.folder_id, created_at := ts } : Folder) ∈
      (upgradeToDepartment s agentId folderName newFolderId roomId
        companyRoomId assistantId ts).folders) ∧
    (getAgentById (upgradeToDepartment s agentId folderName newFolderId roomId
        companyRoomId assistantId ts).agents agentId =
      some { agent with folder_id := newFolderId }) ∧
    (({ id := roomId, folder_id := newFolderId, name := "Department Meeting",
        type := RoomType.meeting, created_at := ts } : Room) ∈
      (upgradeToDepartment s agentId folderName newFolderId roomId
        companyRoomId assistantId ts).rooms) ∧
    (({ id := companyRoomId, folder_id := newFolderId, name := "Department Chat",
        type := RoomType.company, created_at := ts } : Room) ∈
      (upgradeToDepartment s agentId folderName newFolderId roomId
        companyRoomId assistantId ts).rooms) ∧
    (({ id := assistantId, folder_id := newFolderId, name := "Dept Assistant",
        role := "Department Coordinator",
        system_instruction := "You are the primary assistant for this department. You help with meeting minutes and coordination.",
        is_assistant := true } : Agent) ∈
      (upgradeToDepartment s agentId folderName newFolderId roomId
        companyRoomId assistantId ts).agents) ∧
    (({ room_id := roomId, agent_id := agentId } : RoomAgentLink) ∈
      (upgradeToDepartment s agentId folderName newFolderId roomId
        companyRoomId assistantId ts).roomAgents) ∧
    (({ room_id := roomId, agent_id := assistantId } : RoomAgentLink) ∈
      (upgradeToDepartment s agentId folderName newFolderId roomId
        companyRoomId assistantId ts).roomAgents) ∧
    (∀ l ∈ (upgradeToDepartment s agentId folderName newFolderId roomId
        companyRoomId assistantId ts).roomAgents,
      l.room_id = roomId → l.agent_id = agentId ∨ l.agent_id = assistantId) ∧
    (({ room_id := companyRoomId, agent_id := assistantId } : RoomAgentLink) ∈
      (upgradeToDepartment s agentId folderName newFolderId roomId
        companyRoomId assistantId ts).roomAgents) ∧
    (∀ l ∈ (upgradeToDepartment s agentId folderName newFolderId roomId
        companyRoomId assistantId ts).roomAgents,
      l.room_id = companyRoomId → l.agent_id = assistantId) := by
  have hlinks1 : addRoomAgent
      (s.roomAgents ++ [{ room_id := roomId, agent_id := agentId }])
      roomId assistantId =
      s.roomAgents ++ [{ room_id := roomId, agent_id := agentId }] ++
        [{ room_id := roomId, agent_id := assistantId }] := by
    apply addRoomAgent_of_not_mem
    intro l hl
    rcases List.mem_append.mp hl with hl | hl
    · exact fun hp => (hfresh l hl).1 hp.1
    · rw [List.mem_singleton] at hl
      subst hl
      rintro ⟨-, h2⟩
      exact hassist (by simpa using h2.symm)
  have hlinks2 : addRoomAgent
      (s.roomAgents ++ [{ room_id := roomId, agent_id := agentId }] ++
        [{ room_id := roomId, agent_id := assistantId }])
      companyRoomId assistantId =
      s.roomAgents ++ [{ room_id := roomId, agent_id := agentId }] ++
        [{ room_id := roomId, agent_id := assistantId }] ++
        [{ room_id := companyRoomId, agent_id := assistantId }] := by
    apply addRoomAgent_of_not_mem
    intro l hl
    rcases List.mem_append.mp hl with hl | hl
    · rcases List.mem_append.mp hl with hl | hl
      · exact fun hp => (hfresh l hl).2 hp.1
      · rw [List.mem_singleton] at hl
        subst hl
        rintro ⟨h1, -⟩
        exact hrooms (by simpa using h1)
    · rw [List.mem_singleton] at hl
      subst hl
      rintro ⟨h1, -⟩
      exact hrooms (by simpa using h1)
  simp only [upgradeToDepartment, hagent, addFolder, addRoom, addAgent,
    List.map_cons, List.map_nil, List.append_nil, hlinks1, hlinks2]
  refine ⟨?_, ?_, ?_, ?_, ?_, ?_, ?_, ?_, ?_, ?_⟩
  · simp
  · exact getAgentById_append_left _ _ _ _
      (getAgentById_update s.agents agentId newFolderId agent hagent)
  · simp
  · simp
  · simp
  · simp
  · simp
  · intro l hl hr
    rcases List.mem_append.mp hl with hl | hl
    · rcases List.mem_append.mp hl with hl | hl
      · rcases List.mem_append.mp hl with hl | hl
        · exact absurd hr (hfresh l hl).1
        · rw [List.mem_singleton] at hl
          subst hl
          left
          rfl
      · rw [List.mem_singleton] at hl
        subst hl
        right
        rfl
    · rw [List.mem_singleton] at hl
      subst hl
      exact absurd (by simpa using hr) hrooms.symm
  · simp
  · intro l hl hr
    rcases List.mem_append.mp hl with hl | hl
    · rcases List.mem_append.mp hl with hl | hl
      · rcases List.mem_append.mp hl with hl | hl
        · exact absurd hr (hfresh l hl).2
        · rw [List.mem_singleton] at hl
          subst hl
          exact absurd (by simpa using hr) hrooms
      · rw [List.mem_singleton] at hl
        subst hl
        exact absurd (by simpa using hr) hrooms
    · rw [List.mem_singleton] at hl
      subst hl
      rfl

/-- Department name of the upgrade scenario, with its apostrophe. -/
def samDeptName : String := "Sam" ++ apostropheStr ++ "s Dept"

/-- A one-folder store holding only the agent Sam, for the upgrade
scenario. -/
def samStore : Store :=
  { folders := [{ id := "f1", name := "Acme", description := "HQ",
                  parent_id := none, created_at := "t0" }],
    rooms := [], agents := [samAgent], roomAgents := [], messages := [] }

/-- Witness for `upgradeToDepartment_spec`: upgrading Sam in `samStore`. -/
theorem upgradeToDepartment_spec_witness :
    (({ id := "f2", name := samDeptName,
        description := "Department for " ++ samAgent.name,
        parent_id := some samAgent.folder_id, created_at := "t1" } : Folder) ∈
      (upgradeToDepartment samStore "a2" samDeptName "f2" "rm" "rc" "a3" "t1").folders) ∧
    (getAgentById (upgradeToDepartment samStore "a2" samDeptName "f2" "rm" "rc"
        "a3" "t1").agents "a2" = some { samAgent with folder_id := "f2" }) ∧
    (({ id := "rm", folder_id := "f2", name := "Department Meeting",
        type := RoomType.meeting, created_at := "t1" } : Room) ∈
      (upgradeToDepartment samStore "a2" samDeptName "f2" "rm" "rc" "a3" "t1").rooms) ∧
    (({ id := "rc", folder_id := "f2", name := "Department Chat",
        type := RoomType.company, created_at := "t1" } : Room) ∈
      (upgradeToDepartment samStore "a2" samDeptName "f2" "rm" "rc" "a3" "t1").rooms) ∧
    (({ id := "a3", folder_id := "f2", name := "Dept Assistant",
        role := "Department Coordinator",
        system_instruction := "You are the primary assistant for this department. You help with meeting minutes and coordination.",
        is_assistant := true } : Agent) ∈
      (upgradeToDepartment samStore "a2" samDeptName "f2" "rm" "rc" "a3" "t1").agents) ∧
    (({ room_id := "rm", agent_id := "a2" } : RoomAgentLink) ∈
      (upgradeToDepartment samStore "a2" samDeptName "f2" "rm" "rc" "a3" "t1").roomAgents) ∧
    (({ room_id := "rm", agent_id := "a3" } : RoomAgentLink) ∈
      (upgradeToDepartment samStore "a2" samDeptName "f2" "rm" "rc" "a3" "t1").roomAgents) ∧
    (∀ l ∈ (upgradeToDepartment samStore "a2" samDeptName "f2" "rm" "rc"
        "a3" "t1").roomAgents,
      l.room_id = "rm" → l.agent_id = "a2" ∨ l.agent_id = "a3") ∧
    (({ room_id := "rc", agent_id := "a3" } : RoomAgentLink) ∈
      (upgradeToDepartment samStore "a2" samDeptName "f2" "rm" "rc" "a3" "t1").roomAgents) ∧
    (∀ l ∈ (upgradeToDepartment samStore "a2" samDeptName "f2" "rm" "rc"
        "a3" "t1").roomAgents,
      l.room_id = "rc" → l.agent_id = "a3") :=
  upgradeToDepartment_spec samStore "a2" samDeptName "f2" "rm" "rc" "a3" "t1"
    samAgent rfl (by decide) (by decide) (by decide)

theorem addRoomAgent_of_mem (links : List RoomAgentLink) (r a : String)
    (h : ({ room_id := r, agent_id := a } : RoomAgentLink) ∈ links) :
    addRoomAgent links r a = links := by
  rw [addRoomAgent, if_pos]
  rw [List.any_eq_true]
  exact ⟨_, h, by simp⟩

theorem mem_addRoomAgent (links : List RoomAgentLink) (r a : String) :
    ({ room_id := r, agent_id := a } : RoomAgentLink) ∈ addRoomAgent links r a := by
  rw [addRoomAgent]
  split
  · rename_i hany
    rw [List.any_eq_true] at hany
    rcases hany with ⟨l, hl, hp⟩
    simp only [Bool.and_eq_true, beq_iff_eq] at hp
    have hle : ({ room_id := r, agent_id := a } : RoomAgentLink) = l := by
      cases l
      simp_all
    rwa [hle]
  · simp

/-- Claim C7 counterexample: in a store that already holds the pair
`(r1, a1)` twice (reachable, since `addRoom` inserts links without a
duplicate check), calling `addRoomAgent` twice with that pair leaves TWO
copies, not exactly one — both calls are no-ops.  This refutes the claim
for arbitrary store states. -/
theorem addRoomAgent_twice_cex :
    ¬((addRoomAgent (addRoomAgent
        [{ room_id := "r1", agent_id := "a1" },
         { room_id := "r1", agent_id := "a1" }] "r1" "a1") "r1" "a1").count
      { room_id := "r1", agent_id := "a1" } = 1) := by
  decide

/-- Claim C7 (amended): calling `addRoomAgent` twice with the same pair is
idempotent — the second call is always a no-op — and, whenever the store
did not already hold duplicate copies of the pair (at most one), exactly
one link `(r, a)` is present afterwards. -/
theorem addRoomAgent_twice_idempotent (links : List RoomAgentLink) (r a : String)
    (h : links.count { room_id := r, agent_id := a } ≤ 1) :
    addRoomAgent (addRoomAgent links r a) r a = addRoomAgent links r a ∧
    (addRoomAgent (addRoomAgent links r a) r a).count
      { room_id := r, agent_id := a } = 1 := by
  have hsecond : addRoomAgent (addRoomAgent links r a) r a = addRoomAgent links r a :=
    addRoomAgent_of_mem _ _ _ (mem_addRoomAgent links r a)
  refine ⟨hsecond, ?_⟩
  rw [hsecond]
  by_cases hmem : ({ room_id := r, agent_id := a } : RoomAgentLink) ∈ links
  · rw [addRoomAgent_of_mem _ _ _ hmem]
    have h0 : links.count ({ room_id := r, agent_id := a } : RoomAgentLink) ≠ 0 :=
      fun h0 => (List.count_eq_zero.mp h0) hmem
    omega
  · rw [addRoomAgent_of_not_mem]
    · rw [List.count_append, List.count_eq_zero.mpr hmem]
      simp
    · intro l hl hp
      apply hmem
      have hle : l = ({ room_id := r, agent_id := a } : RoomAgentLink) := by
        cases l
        simp_all
      rwa [hle] at hl

/-- Witness for `addRoomAgent_twice_idempotent` starting from the empty
link table. -/
theorem addRoomAgent_twice_idempotent_witness :
    addRoomAgent (addRoomAgent ([] : List RoomAgentLink) "r1" "a1") "r1" "a1"
      = addRoomAgent ([] : List RoomAgentLink) "r1" "a1" ∧
    (addRoomAgent (addRoomAgent ([] : List RoomAgentLink) "r1" "a1") "r1" "a1").count
      { room_id := "r1", agent_id := "a1" } = 1 :=
  addRoomAgent_twice_idempotent [] "r1" "a1" (by decide)

/-- Claim C9: `addRoom` appends one room-agent link per element of
`agentIds` with no duplicate checking — the link table grows by exactly
`agentIds.length` entries, and the multiplicity of each pair
`(room.id, a)` grows by exactly the multiplicity of `a` in `agentIds`
(so duplicate inputs produce duplicate links; pair uniqueness is enforced
only by the `addRoomAgent` path). -/
theorem addRoom_appends_all_links (s : Store) (room : Room)
    (agentIds : List String) (a : String) :
    (addRoom s room agentIds).roomAgents.length
      = s.roomAgents.length + agentIds.length ∧
    (addRoom s room agentIds).roomAgents.count
        { room_id := room.id, agent_id := a }
      = s.roomAgents.count { room_id := room.id, agent_id := a }
        + agentIds.count a := by
  constructor
  · simp [addRoom]
  · have hinj : Function.Injective
        (fun aid => ({ room_id := room.id, agent_id := aid } : RoomAgentLink)) := by
      intro x y hxy
      simpa using hxy
    have hc : (agentIds.map
          (fun aid => ({ room_id := room.id, agent_id := aid } : RoomAgentLink))).count
        ({ room_id := room.id, agent_id := a } : RoomAgentLink)
        = agentIds.count a :=
      List.count_map_of_injective agentIds _ hinj a
    simp only [addRoom, List.count_append, hc]

/-- Parent folder of the delete-cascade demonstration store. -/
def parentFolderDemo : Folder :=
  { id := "f1", name := "Acme", description := "HQ",
    parent_id := none, created_at := "t0" }

/-- Child department folder of the demonstration store. -/
def childFolderDemo : Folder :=
  { id := "f2", name := "Dept", description := "Department",
    parent_id := some "f1", created_at := "t1" }

/-- Demonstration store: a parent folder with one room, one agent, a link
and a message, plus a child department folder with its own room, agent,
link and message. -/
def demoStore : Store :=
  { folders := [parentFolderDemo, childFolderDemo],
    rooms :=
      [{ id := "r1", folder_id := "f1", name := "Company Chat",
         type := RoomType.company, created_at := "t0" },
       { id := "r2", folder_id := "f2", name := "Department Chat",
         type := RoomType.company, created_at := "t1" }],
    agents :=
      [{ id := "a1", folder_id := "f1", name := "Root Assistant",
         role := "Coordinator", system_instruction := "Coordinate.",
         is_assistant := true },
       { id := "a9", folder_id := "f2", name := "Dept Assistant",
         role := "Coordinator", system_instruction := "Coordinate.",
         is_assistant := true }],
    roomAgents :=
      [{ room_id := "r1", agent_id := "a1" },
       { room_id := "r2", agent_id := "a9" }],
    messages :=
      [{ id := "m1", room_id := "r1", agent_id := none, role := MsgRole.user,
         content := "hello", timestamp := "t2" },
       { id := "m2", room_id := "r2", agent_id := none, role := MsgRole.user,
         content := "hi dept", timestamp := "t3" }] }

/-- Witness for `removeFolder_child_untouched`: deleting the parent folder
of `demoStore` leaves the child department folder and all of its records
in place. -/
theorem removeFolder_child_untouched_witness :
    childFolderDemo ∈ (removeFolder demoStore "f1").folders ∧
    (∀ r ∈ demoStore.rooms, r.folder_id = childFolderDemo.id →
      r ∈ (removeFolder demoStore "f1").rooms) ∧
    (∀ a ∈ demoStore.agents, a.folder_id = childFolderDemo.id →
      a ∈ (removeFolder demoStore "f1").agents) ∧
    (∀ ra ∈ demoStore.roomAgents,
      (∃ r ∈ demoStore.rooms, r.id = ra.room_id ∧ r.folder_id = childFolderDemo.id) →
      ra ∈ (removeFolder demoStore "f1").roomAgents) ∧
    (∀ m ∈ demoStore.messages,
      (∃ r ∈ demoStore.rooms, r.id = m.room_id ∧ r.folder_id = childFolderDemo.id) →
      m ∈ (removeFolder demoStore "f1").messages) :=
  removeFolder_child_untouched demoStore "f1" childFolderDemo
    (by decide) (by decide) (by decide) (by decide)

end AgenticWorkspace
